import Mathlib

/-!
# Verification of the deep_cash structured algorithm space and REINFORCE trainer

Shallow embedding of the core of the `deep_cash` package:

* `src/deep_cash/deep_cash/components/algorithm_component.py`
  (`_check_hyperparameters`, `AlgorithmComponent` and its hyperparameter
  iteration / sampling methods);
* `src/deep_cash/deep_cash/algorithm_space.py`
  (`AlgorithmSpace`: `get_components`, `sample_component`,
  `sample_components_from_signature`, `sample_ml_framework`,
  `framework_iterator`, `create_ml_framework`, `_combine_dicts`);
* `src/deep_cash/deep_cash/cash_reinforce.py`
  (`CASHReinforce.evaluate_actions`, `_update_baseline_reward_buffer`,
  per-episode statistics of `fit`).

Python dicts are embedded as association lists with Python's
insert-or-overwrite update semantics; Python `None`-able results are
`Option`; Python exceptions are an explicit `PyErr` error type threaded
through `Except`.  Random draws (`np.random.randint`) are made explicit:
the drawn integer is a parameter, reduced modulo the range size, and an
empty range raises `ValueError` exactly as `np.random.randint(0)` does.
-/

namespace DeepCash

/-- Python exception kinds that the embedded code can raise.
`valueError` models `ValueError` (e.g. `np.random.randint(0)`, or
`dict.update` with a sequence whose elements do not have length 2),
`typeError` models `TypeError` (e.g. calling a zero-argument method with an
extra positional argument), and `configurationError` models the package's
own configuration-error signal (the spec's `ConfigurationError` taxonomy
entry; the `errors` module itself is not part of the sources). -/
inductive PyErr where
  | valueError : PyErr
  | typeError : PyErr
  | configurationError : PyErr
deriving DecidableEq, Repr

/-- A Python hyperparameter value: the catalogs use strings, booleans and
numbers as hyperparameter values; numbers are embedded as rationals. -/
inductive HValue where
  | str : String → HValue
  | boolean : Bool → HValue
  | num : ℚ → HValue
deriving DecidableEq, Repr

/-- A Python dict with keys of type `κ`, embedded as an association list in
insertion order. -/
abbrev PyDict (κ α : Type) := List (κ × α)

/-- Python `d[k]` / `d.get(k)`: first binding of `k` in the list. -/
def alookup {κ α : Type} [DecidableEq κ] (k : κ) : PyDict κ α → Option α
  | [] => none
  | (k', v) :: rest => if k' = k then some v else alookup k rest

/-- Python `d[k] = v`: overwrite in place if `k` is bound, else append. -/
def dictInsert {κ α : Type} [DecidableEq κ] (d : PyDict κ α) (k : κ) (v : α) :
    PyDict κ α :=
  match d with
  | [] => [(k, v)]
  | (k', v') :: rest =>
      if k' = k then (k, v) :: rest else (k', v') :: dictInsert rest k v

/-- Python `d.update(new)` where `new` is a dict: insert each of `new`'s
bindings in order. -/
def dictUpdate {κ α : Type} [DecidableEq κ] (d new : PyDict κ α) : PyDict κ α :=
  new.foldl (fun acc p => dictInsert acc p.1 p.2) d

/-- Python `dict(pairs)`: build a dict from a list of key/value pairs. -/
def dictOf {κ α : Type} [DecidableEq κ] (pairs : List (κ × α)) : PyDict κ α :=
  dictUpdate [] pairs

/-- The exclusion-condition map in the fully-qualified form produced by
`AlgorithmComponent.hyperparameter_exclusion_conditions`:
hyperparameter name → value → (subsequent hyperparameter name → disallowed
values). -/
abbrev ExclusionConditions :=
  PyDict String (PyDict HValue (PyDict String (List HValue)))

/-- `key in exclude_cases and value in exclude_cases[key]` from
`_check_hyperparameters`. -/
def valueExcluded (key : String) (value : HValue)
    (excludeCases : PyDict String (List HValue)) : Bool :=
  match alookup key excludeCases with
  | some disallowed => decide (value ∈ disallowed)
  | none => false

/-- The loop of `_check_hyperparameters`
(`components/algorithm_component.py`, lines 19-37): walk the `(key, value)`
pairs in order, accumulating triggered exclusions in `excludeCases`;
return the final accumulated map, or `none` on the early rejection. -/
def checkHyperparametersAux (conds : ExclusionConditions) :
    List (String × HValue) → PyDict String (List HValue) →
    Option (PyDict String (List HValue))
  | [], excludeCases => some excludeCases
  | (key, value) :: rest, excludeCases =>
    if valueExcluded key value excludeCases then
      none
    else
      match alookup key conds with
      | none => checkHyperparametersAux conds rest excludeCases
      | some excludeDict =>
        match alookup value excludeDict with
        | none => checkHyperparametersAux conds rest excludeCases
        | some newExclusions =>
            checkHyperparametersAux conds rest
              (dictUpdate excludeCases newExclusions)

/-- `_check_hyperparameters(hyperparameters, exclusion_conditions)`:
`None` when the ordered walk rejects the assignment, otherwise
`dict(hyperparameters)`. -/
def checkHyperparameters (hyperparameters : List (String × HValue))
    (conds : ExclusionConditions) : Option (PyDict String HValue) :=
  match checkHyperparametersAux conds hyperparameters [] with
  | none => none
  | some _ => some (dictOf hyperparameters)

/-- Modelled from the spec: the `Hyperparameter` leaf
(`components/hyperparameter.py` is not among the sources).  Per spec §3 a
hyperparameter has a name and an ordered finite value domain;
`stateSpace` is what `get_state_space(with_none_token=False)` returns,
which is how `hyperparameter_state_space` (and hence the iterator and the
sampler) consume it. -/
structure Hyperparameter where
  hname : String
  stateSpace : List HValue
deriving DecidableEq, Repr

instance : DecidableEq (List (String × List HValue)) := inferInstance

instance : DecidableEq (List (HValue × List (String × List HValue))) :=
  inferInstance

instance :
    DecidableEq (List (String × List (HValue × List (String × List HValue)))) :=
  inferInstance

/-- `AlgorithmComponent` (`components/algorithm_component.py`): name, the
wrapped estimator class (opaque, identified by name), component type,
optional ordered hyperparameter list, constant hyperparameters,
environment-dependent hyperparameters, and optional raw exclusion
conditions keyed by bare hyperparameter name. -/
structure AlgorithmComponent where
  name : String
  componentClass : String
  componentType : String
  hyperparameters : Option (List Hyperparameter) := none
  constantHyperparameters : PyDict String HValue := []
  envDepHyperparameters : PyDict String HValue := []
  exclusionConditions :
    Option (PyDict String (PyDict HValue (PyDict String (List HValue)))) := none
deriving DecidableEq, Repr

namespace AlgorithmComponent

/-- `"%s__%s" % (self.name, h)`: the component-qualified hyperparameter
name. -/
def qualified (c : AlgorithmComponent) (h : String) : String :=
  c.name ++ "__" ++ h

/-- `env_dep_hyperparameter_name_space()`: the environment-dependent
hyperparameters under component-qualified names. -/
def envDepHyperparameterNameSpace (c : AlgorithmComponent) :
    PyDict String HValue :=
  dictOf (c.envDepHyperparameters.map (fun p => (c.qualified p.1, p.2)))

/-- `hyperparameter_name_space()`: `None` when the component declares no
hyperparameters, else the qualified names in declaration order. -/
def hyperparameterNameSpace (c : AlgorithmComponent) : Option (List String) :=
  match c.hyperparameters with
  | none => none
  | some hs => some (hs.map (fun h => c.qualified h.hname))

/-- `hyperparameter_state_space()` (`with_none_token=False`): ordered dict
from qualified name to value domain; empty when `hyperparameters is None`. -/
def hyperparameterStateSpace (c : AlgorithmComponent) :
    PyDict String (List HValue) :=
  match c.hyperparameters with
  | none => []
  | some hs => dictOf (hs.map (fun h => (c.qualified h.hname, h.stateSpace)))

/-- `hyperparameter_exclusion_conditions()`: empty when there are no
hyperparameters or no exclusion conditions, else the raw conditions with
every hyperparameter name component-qualified. -/
def hyperparameterExclusionConditions (c : AlgorithmComponent) :
    ExclusionConditions :=
  match c.hyperparameters, c.exclusionConditions with
  | none, _ => []
  | some _, none => []
  | some _, some ec =>
      dictOf (ec.map (fun p =>
        (c.qualified p.1,
         p.2.map (fun q =>
           (q.1, dictOf (q.2.map (fun r => (c.qualified r.1, r.2))))))))

end AlgorithmComponent

/-- `itertools.product(*lists)`: Cartesian product of a list of lists, the
last factor varying fastest; `product()` of no factors is one empty
tuple. -/
def listProd {α : Type} : List (List α) → List (List α)
  | [] => [[]]
  | xs :: rest => xs.flatMap (fun x => (listProd rest).map (fun t => x :: t))

namespace AlgorithmComponent

/-- The `expanded_state_space` of `hyperparameter_iterator`: one list of
`(qualified name, value)` pairs per hyperparameter. -/
def expandedStateSpace (c : AlgorithmComponent) :
    List (List (String × HValue)) :=
  c.hyperparameterStateSpace.map (fun p => p.2.map (fun v => (p.1, v)))

/-- The truthiness test of `filter(None, ...)` applied to a
`_check_hyperparameters` result: both `None` and the empty dict are falsy
and get dropped. -/
def pyTruthyFilter (r : Option (PyDict String HValue)) :
    Option (PyDict String HValue) :=
  match r with
  | none => none
  | some d => if d.isEmpty then none else some d

/-- `hyperparameter_iterator()`: `_check_hyperparameters` applied to every
point of the full grid, with `filter(None, ...)` dropping the falsy
results — both rejected (`None`) settings and the empty dict. -/
def hyperparameterIterator (c : AlgorithmComponent) :
    List (PyDict String HValue) :=
  ((listProd c.expandedStateSpace).map
      (fun hsetting =>
        checkHyperparameters hsetting c.hyperparameterExclusionConditions)
    ).filterMap pyTruthyFilter

/-- `sample_hyperparameter_state_space()`
(`components/algorithm_component.py`, lines 169-176): one uniform draw per
declared hyperparameter, independently and without consulting the
exclusion conditions.  `rand i` is the integer `np.random.randint` drew for
the `i`-th hyperparameter, taken modulo the domain size; an empty domain
raises `ValueError` as `np.random.randint(0)` does. -/
def sampleHyperparameterStateSpace (c : AlgorithmComponent)
    (rand : Nat → Nat) : Except PyErr (PyDict String HValue) :=
  (c.hyperparameterStateSpace.enum.mapM (fun p =>
      let values := p.2.2
      if h : values.length = 0 then
        Except.error PyErr.valueError
      else
        Except.ok (p.2.1,
          values.get ⟨rand p.1 % values.length,
            Nat.mod_lt _ (Nat.pos_of_ne_zero h)⟩))).map dictOf

/-- A Python-level call of `sample_hyperparameter_state_space`: the method
is declared `def sample_hyperparameter_state_space(self)` (line 169), so
the interpreter raises `TypeError` when it is passed any positional
argument besides `self`.  `argc` is the number of such extra arguments. -/
def callSampleHyperparameterStateSpace (c : AlgorithmComponent)
    (rand : Nat → Nat) (argc : Nat) : Except PyErr (PyDict String HValue) :=
  if argc ≠ 0 then Except.error PyErr.typeError
  else sampleHyperparameterStateSpace c rand

end AlgorithmComponent

/-- An entry of `AlgorithmSpace.components`: either a registered
`AlgorithmComponent` or one of the special start/end/none token strings
(their literal values live in the constants module; only their identity as
non-components matters, since `get_components` filters them out). -/
inductive SpaceEntry where
  | comp : AlgorithmComponent → SpaceEntry
  | token : String → SpaceEntry
deriving DecidableEq, Repr

/-- `AlgorithmSpace` (`algorithm_space.py`): the four component catalogs
and the token flags of `__init__`. -/
structure AlgorithmSpace where
  dataPreprocessors : List AlgorithmComponent
  featurePreprocessors : List AlgorithmComponent
  classifiers : List AlgorithmComponent
  regressors : List AlgorithmComponent
  withStartToken : Bool := false
  withEndToken : Bool := false
  withNoneToken : Bool := false
deriving Repr

namespace AlgorithmSpace

/-- The `components` property: the concatenated catalogs, with the enabled
special tokens appended at the end. -/
def componentsEntries (s : AlgorithmSpace) : List SpaceEntry :=
  (s.dataPreprocessors ++ s.featurePreprocessors ++ s.classifiers ++
      s.regressors).map SpaceEntry.comp
    ++ (if s.withStartToken then [SpaceEntry.token "start_token"] else [])
    ++ (if s.withEndToken then [SpaceEntry.token "end_token"] else [])
    ++ (if s.withNoneToken then [SpaceEntry.token "none_token"] else [])

/-- `get_components(component_type)`: the components of the given type,
special tokens excluded (lines 154-165; the `except` branch only starts a
debugger and is unreachable, since the token test short-circuits the
attribute access). -/
def getComponents (s : AlgorithmSpace) (componentType : String) :
    List AlgorithmComponent :=
  s.componentsEntries.filterMap (fun e =>
    match e with
    | SpaceEntry.comp c =>
        if c.componentType = componentType then some c else none
    | SpaceEntry.token _ => none)

/-- `sample_component(component_type)` (lines 181-191):
`subset[np.random.randint(len(subset))]`.  `r` is the drawn integer, taken
modulo the subset size; `np.random.randint(0)` on an empty subset raises
`ValueError`. -/
def sampleComponent (s : AlgorithmSpace) (componentType : String) (r : Nat) :
    Except PyErr AlgorithmComponent :=
  let subset := s.getComponents componentType
  if h : subset.length = 0 then Except.error PyErr.valueError
  else
    Except.ok (subset.get ⟨r % subset.length,
      Nat.mod_lt _ (Nat.pos_of_ne_zero h)⟩)

/-- `sample_components_from_signature(signature)` (lines 126-133): one
`sample_component` per signature entry, in order; `rands` supplies the
random draw for each slot. -/
def sampleComponentsFromSignature (s : AlgorithmSpace)
    (signature : List String) (rands : List Nat) :
    Except PyErr (List AlgorithmComponent) :=
  (signature.zip rands).mapM (fun p => s.sampleComponent p.1 p.2)

end AlgorithmSpace

/-- An assembled ML framework: the `sklearn.Pipeline` that
`create_ml_framework` builds, reduced to what the embedded code observes —
the ordered `(component name, component class)` steps and the parameter
dict passed to `set_params`. -/
structure MLFramework where
  steps : List (String × String)
  params : PyDict String HValue
deriving DecidableEq, Repr

namespace AlgorithmSpace

/-- `create_ml_framework(components, hyperparameters,
env_dep_hyperparameters)` (lines 230-251): start from the supplied
hyperparameters, merge the env-dependent ones when truthy, then per
component add a step and merge its `env_dep_hyperparameter_name_space()`.
(`set_params` on a name unknown to the estimators raises; no claim
exercises that path, so parameters are recorded as given.) -/
def createMlFramework (components : List AlgorithmComponent)
    (hyperparameters : PyDict String HValue)
    (envDepHyperparameters : PyDict String HValue) : MLFramework :=
  let h0 := if envDepHyperparameters.isEmpty then hyperparameters
            else dictUpdate hyperparameters envDepHyperparameters
  let h1 := components.foldl
    (fun acc a => dictUpdate acc a.envDepHyperparameterNameSpace) h0
  { steps := components.map (fun a => (a.name, a.componentClass)),
    params := h1 }

/-- `itertools.product` applied to a SINGLE iterable argument, which is how
`framework_iterator` calls it (no `*` unpacking): the Cartesian product of
one factor, i.e. a one-element tuple per element of the iterable. -/
def pyProduct1 {α : Type} (xs : List α) : List (List α) :=
  xs.map (fun x => [x])

/-- One step of `dict.update` on a non-mapping iterable (CPython's
`PyDict_MergeFromSeq2`): each element is itself converted to a sequence —
a dict yields its keys — and must have length exactly 2, else
`ValueError`; a two-key dict element thus silently inserts its first key
as the key and its second key as the value. -/
def seqElemAsPair (acc : PyDict String HValue) (a : PyDict String HValue) :
    Except PyErr (PyDict String HValue) :=
  match a with
  | [(k1, _), (k2, _)] => Except.ok (dictInsert acc k1 (HValue.str k2))
  | _ => Except.error PyErr.valueError

/-- `_combine_dicts` as `framework_iterator` invokes it: each element of
`dicts` is a whole `hyperparameter_iterator()` stream (a sequence of
dicts), so `combined_dicts.update(d)` takes the non-mapping-sequence path
and merges each yielded dict via `seqElemAsPair`; an empty stream is a
no-op. -/
def combineDicts (dicts : List (List (PyDict String HValue))) :
    Except PyErr (PyDict String HValue) :=
  dicts.foldlM (fun acc d => d.foldlM seqElemAsPair acc) []

/-- The generator of `framework_iterator` (lines 220-228) after the
component sampling: `for component_list in itertools.product(sampled)`
(one-element tuples), then `for hyperparam_list_dicts in
itertools.product([c.hyperparameter_iterator() for c in component_list])`,
yielding `create_ml_framework(component_list,
hyperparameters=_combine_dicts(hyperparam_list_dicts))`.  Materialized
eagerly: an exception anywhere fails the whole enumeration. -/
def frameworkIteratorBody (sampled : List AlgorithmComponent) :
    Except PyErr (List MLFramework) :=
  ((pyProduct1 sampled).flatMap (fun componentList =>
      (pyProduct1
          (componentList.map AlgorithmComponent.hyperparameterIterator)).map
        (fun hld => (componentList, hld)))).mapM
    (fun p => (combineDicts p.2).map (fun h => createMlFramework p.1 h []))

/-- `framework_iterator(signature)` (lines 209-228): sample one component
per slot, then run the generator body above. -/
def frameworkIterator (s : AlgorithmSpace) (signature : List String)
    (rands : List Nat) : Except PyErr (List MLFramework) := do
  let sampled ← s.sampleComponentsFromSignature signature rands
  frameworkIteratorBody sampled

/-- `sample_ml_framework(signature)` (lines 193-207): sample components,
then for each call `a.sample_hyperparameter_state_space(signature)` —
i.e. with ONE extra positional argument (`argc = 1`), against the method's
declared zero-argument signature — merging the results, then assemble. -/
def sampleMlFramework (s : AlgorithmSpace) (signature : List String)
    (rands : List Nat) (hrand : Nat → Nat) : Except PyErr MLFramework := do
  let components ← s.sampleComponentsFromSignature signature rands
  let fh ← components.foldlM (fun acc a => do
      let settings ← a.callSampleHyperparameterStateSpace hrand 1
      pure (dictUpdate acc settings)) ([] : PyDict String HValue)
  pure (createMlFramework components fh [])

end AlgorithmSpace

/-! ## The REINFORCE trainer (`cash_reinforce.py`) -/

/-- Modelled from the spec: `utils._exponential_mean` (`utils.py` is not
among the sources).  Spec §4.3 step 7:
`baseline_t = beta * reward_t + (1 - beta) * baseline_{t-1}`. -/
def exponentialMean (reward baseline beta : ℚ) : ℚ :=
  beta * reward + (1 - beta) * baseline

/-- Modelled from the spec: `utils._ml_framework_diversity` (`utils.py` is
not among the sources).  Spec §4.3 step 4: a diversity ratio
`unique / successful`, `0` when `successful = 0` to avoid division by
zero. -/
def mlFrameworkDiversity (nUnique nSuccessful : ℕ) : ℚ :=
  if nSuccessful = 0 then 0 else (nUnique : ℚ) / (nSuccessful : ℚ)

/-- The trainer state that `_update_baseline_reward_buffer` touches: the
controller's `baseline_reward_buffer` and the trainer's
`_current_baseline_reward`. -/
structure BaselineState where
  baselineRewardBuffer : List ℚ
  currentBaselineReward : ℚ
deriving DecidableEq, Repr

/-- `CASHReinforce._update_baseline_reward_buffer(reward)`
(`cash_reinforce.py`, lines 194-198): append the pre-update baseline to
the buffer, then recompute the exponential moving average. -/
def updateBaselineRewardBuffer (beta : ℚ) (st : BaselineState) (reward : ℚ) :
    BaselineState :=
  { baselineRewardBuffer :=
      st.baselineRewardBuffer ++ [st.currentBaselineReward],
    currentBaselineReward :=
      exponentialMean reward st.currentBaselineReward beta }

/-- One episode's worth of `_update_baseline_reward_buffer` calls, starting
from baseline `b` with an empty (freshly drained) buffer: the buffer as
recorded during the episode, and the final baseline. -/
def episodeBaselineRecords (beta b : ℚ) (rewards : List ℚ) : List ℚ × ℚ :=
  let st := rewards.foldl (updateBaselineRewardBuffer beta) ⟨[], b⟩
  (st.baselineRewardBuffer, st.currentBaselineReward)

/-- The episode loop of `fit` as it concerns the baseline (lines 62-63 and
64-77): `_current_baseline_reward` is set to `0` once, before the first
episode, and threaded through every episode without a reset;
`controller.backward` drains the buffer at each episode end, so the trace
holds one recorded buffer per episode.  `episodes` abstracts each
episode's sequence of rewards. -/
def fitBaselineTraceAux (beta : ℚ) : ℚ → List (List ℚ) → List (List ℚ)
  | _, [] => []
  | b, rewards :: rest =>
      (episodeBaselineRecords beta b rewards).1 ::
        fitBaselineTraceAux beta (episodeBaselineRecords beta b rewards).2 rest

/-- The per-episode baseline buffers of a whole `fit` run, starting from
the one-time initialization `_current_baseline_reward = 0`. -/
def fitBaselineTrace (beta : ℚ) (episodes : List (List ℚ)) :
    List (List ℚ) :=
  fitBaselineTraceAux beta 0 episodes

/-- The per-episode bookkeeping reset at the top of each `fit` episode
(lines 66-71) plus `_n_valid_mlf` (reset in `_fit_episode`, line 142). -/
structure EpisodeState where
  nValidMlf : ℕ
  validationScores : List ℚ
  successfulMlfs : List MLFramework
  algorithmSets : List (List AlgorithmComponent)
  hyperparameterSets : List (PyDict String HValue)
  bestValidationScore : Option ℚ
  bestMlf : Option MLFramework
deriving Repr

/-- The fresh per-episode state. -/
def initialEpisodeState : EpisodeState := ⟨0, [], [], [], [], none, none⟩

/-- `CASHReinforce.evaluate_actions(actions)` (lines 166-185), with the
action sequence already partitioned by `_get_mlf_components` into the
ordered component choices and the hyperparameter dict, and the task
environment abstracted as the function `evaluate` (`none` signals an
evaluation failure) together with its `error_reward` and
`env_dep_hyperparameters()`.  Returns the reward handed back to
`_fit_iter` together with the updated episode state. -/
def evaluateActions (evaluate : MLFramework → Option ℚ) (errorReward : ℚ)
    (envDep : PyDict String HValue) (algorithms : List AlgorithmComponent)
    (hyperparameters : PyDict String HValue) (st : EpisodeState) :
    ℚ × EpisodeState :=
  let mlf := AlgorithmSpace.createMlFramework algorithms hyperparameters envDep
  match evaluate mlf with
  | none => (errorReward, st)
  | some reward =>
      (reward,
       { nValidMlf := st.nValidMlf + 1,
         validationScores := st.validationScores ++ [reward],
         successfulMlfs := st.successfulMlfs ++ [mlf],
         algorithmSets := st.algorithmSets ++ [algorithms],
         hyperparameterSets := st.hyperparameterSets ++ [hyperparameters],
         bestValidationScore :=
           match st.bestValidationScore with
           | none => some reward
           | some best => if best < reward then some reward else some best,
         bestMlf :=
           match st.bestValidationScore with
           | none => some mlf
           | some best => if best < reward then some mlf else st.bestMlf })

/-- One episode's evaluation loop: `evaluate_actions` folded over the
iterations' decoded (components, hyperparameters) pairs. -/
def runEpisodeEval (evaluate : MLFramework → Option ℚ) (errorReward : ℚ)
    (envDep : PyDict String HValue)
    (iters : List (List AlgorithmComponent × PyDict String HValue))
    (st : EpisodeState) : EpisodeState :=
  iters.foldl (fun s it =>
    (evaluateActions evaluate errorReward envDep it.1 it.2 s).2) st

/-- Python hash/equality identity of an `AlgorithmComponent`:
`(name, component_class, component_type)` (`__hash__`/`__eq__`, lines
181-185 of `algorithm_component.py`). -/
def componentKey (c : AlgorithmComponent) : String × String × String :=
  (c.name, c.componentClass, c.componentType)

/-- `len(set(tuple(s) for s in self._algorithm_sets))` (line 89 of
`cash_reinforce.py`): the number of distinct component tuples under
Python's component identity. -/
def nUniqueMlfs (algorithmSets : List (List AlgorithmComponent)) : ℕ :=
  ((algorithmSets.map (List.map componentKey)).dedup).length

/-- `len(set(str(d.items()) for d in self._hyperparameter_sets))` (lines
90-91): two `str(d.items())` coincide exactly when the dicts hold the same
bindings in the same order, i.e. when the association lists are equal. -/
def nUniqueHyperparameters (sets : List (PyDict String HValue)) : ℕ :=
  sets.dedup.length

/-- `np.mean` of a list of rationals. -/
def meanQ (xs : List ℚ) : ℚ := xs.sum / xs.length

/-- `np.mean(self._validation_scores)` guarded by `len > 0` (lines 82-87);
`none` is the NaN sentinel taken when the episode had no successes. -/
def meanValidationScore (scores : List ℚ) : Option ℚ :=
  if 0 < scores.length then some (meanQ scores) else none

/-- `np.std(self._validation_scores)` guarded by `len > 0` (lines 82-87),
with `none` the NaN sentinel.  The defined payload carried here is the
variance (`np.std` is its square root, irrational in general); only the
defined/NaN split matters to the claims. -/
def stdValidationScore (scores : List ℚ) : Option ℚ :=
  if 0 < scores.length then
    some (meanQ (scores.map (fun x => (x - meanQ scores) ^ 2)))
  else none

/-- The per-episode statistics block of `fit` (lines 80-108). -/
structure EpisodeSummary where
  meanValidationScore : Option ℚ
  stdValidationScore : Option ℚ
  nSuccessfulMlfs : ℕ
  nUniqueMlfs : ℕ
  nUniqueHyperparameters : ℕ
  mlfFrameworkDiversity : ℚ
  bestValidationScore : Option ℚ
  bestMlf : Option MLFramework
deriving Repr

/-- The statistics `fit` computes from the episode state (lines 80-108). -/
def episodeSummary (st : EpisodeState) : EpisodeSummary :=
  { meanValidationScore := meanValidationScore st.validationScores,
    stdValidationScore := stdValidationScore st.validationScores,
    nSuccessfulMlfs := st.successfulMlfs.length,
    nUniqueMlfs := nUniqueMlfs st.algorithmSets,
    nUniqueHyperparameters := nUniqueHyperparameters st.hyperparameterSets,
    mlfFrameworkDiversity :=
      mlFrameworkDiversity (nUniqueMlfs st.algorithmSets)
        st.successfulMlfs.length,
    bestValidationScore := st.bestValidationScore,
    bestMlf := st.bestMlf }

/-! ## Concrete instances for the claims -/

/-- A concrete component with an exclusion rule, mirroring the shape of
the `exclusion_conditions` docstring example: picking `h1 = "a"` forbids
the later `h2 = "c"`. -/
def exampleComponent : AlgorithmComponent :=
  { name := "clf", componentClass := "ClfClass",
    componentType := "classifier",
    hyperparameters := some
      [⟨"h1", [HValue.str "a", HValue.str "b"]⟩,
       ⟨"h2", [HValue.str "c", HValue.str "d"]⟩],
    exclusionConditions := some
      [("h1", [(HValue.str "a", [("h2", [HValue.str "c"])])])] }

/-- A component of the spec's small synthetic catalog: one two-valued
hyperparameter, no exclusions. -/
def mkSyntheticComponent (name cls ctype hp : String) : AlgorithmComponent :=
  { name := name, componentClass := cls, componentType := ctype,
    hyperparameters :=
      some [⟨hp, [HValue.boolean true, HValue.boolean false]⟩] }

/-- The spec's synthetic catalog for `framework_iterator`: two slots, two
components per slot, one two-valued hyperparameter per component, no
exclusions — the claim counts `4 × (2×2) = 16` combinations. -/
def syntheticSpace : AlgorithmSpace :=
  { dataPreprocessors := [],
    featurePreprocessors :=
      [mkSyntheticComponent "FP1" "FP1Class" "feature_preprocessor" "p",
       mkSyntheticComponent "FP2" "FP2Class" "feature_preprocessor" "p"],
    classifiers :=
      [mkSyntheticComponent "CL1" "CL1Class" "classifier" "c",
       mkSyntheticComponent "CL2" "CL2Class" "classifier" "c"],
    regressors := [] }

/-- The two-slot signature of the synthetic catalog. -/
def syntheticSignature : List String := ["feature_preprocessor", "classifier"]

/-- A space with no registered components at all. -/
def emptySpace : AlgorithmSpace :=
  { dataPreprocessors := [], featurePreprocessors := [],
    classifiers := [], regressors := [] }

/-- A space registering exactly one classifier. -/
def singletonSpace : AlgorithmSpace :=
  { dataPreprocessors := [], featurePreprocessors := [],
    classifiers := [exampleComponent], regressors := [] }

/-- A component declaring no hyperparameters (`hyperparameters is None`),
as `one_hot_encoder()` in `components/data_preprocessors.py` builds. -/
def oneHotEncoderComponent : AlgorithmComponent :=
  { name := "OneHotEncoder", componentClass := "OneHotEncoder",
    componentType := "one_hot_encoder" }

/-! ## Helper lemmas -/

theorem ok_bind {ε α β : Type} (a : α) (f : α → Except ε β) :
    (Except.ok a >>= f) = f a := rfl

theorem error_bind {ε α β : Type} (e : ε) (f : α → Except ε β) :
    ((Except.error e : Except ε α) >>= f) = Except.error e := rfl

theorem updateBaselineRewardBuffer_buffer (beta : ℚ) (st : BaselineState)
    (reward : ℚ) :
    (updateBaselineRewardBuffer beta st reward).baselineRewardBuffer
      = st.baselineRewardBuffer ++ [st.currentBaselineReward] := rfl

theorem updateBaselineRewardBuffer_current (beta : ℚ) (st : BaselineState)
    (reward : ℚ) :
    (updateBaselineRewardBuffer beta st reward).currentBaselineReward
      = beta * reward + (1 - beta) * st.currentBaselineReward := rfl

/-- `sample_component` succeeds exactly on a nonempty component subset, and
then returns a member of that subset. -/
theorem sampleComponent_ok_of_ne_nil (s : AlgorithmSpace) (t : String)
    (r : Nat) (h : s.getComponents t ≠ []) :
    ∃ c, s.sampleComponent t r = Except.ok c ∧ c ∈ s.getComponents t := by
  have hl : ¬((s.getComponents t).length = 0) := by
    simpa [List.length_eq_zero] using h
  simp only [AlgorithmSpace.sampleComponent]
  rw [dif_neg hl]
  exact ⟨_, rfl, List.get_mem _ _ _⟩

/-- A successful `mapM` over `Except` keeps the length and draws each
output from a successful call on some input. -/
theorem mapM_ok_forall {α β : Type} (f : α → Except PyErr β) :
    ∀ (l : List α) (out : List β), l.mapM f = Except.ok out →
      out.length = l.length ∧ ∀ b ∈ out, ∃ a ∈ l, f a = Except.ok b := by
  intro l
  induction l with
  | nil =>
    intro out h
    simp only [List.mapM_nil, pure, Except.pure] at h
    cases h
    simp
  | cons a rest ih =>
    intro out h
    rw [List.mapM_cons] at h
    cases hfa : f a with
    | error e => rw [hfa] at h; cases h
    | ok b =>
      rw [hfa, ok_bind] at h
      cases hrest : rest.mapM f with
      | error e => rw [hrest] at h; cases h
      | ok bs =>
        rw [hrest, ok_bind] at h
        simp only [pure, Except.pure] at h
        cases h
        obtain ⟨hlen, hmem⟩ := ih bs hrest
        refine ⟨by simp [hlen], ?_⟩
        intro x hx
        rcases List.mem_cons.mp hx with rfl | hx
        · exact ⟨a, by simp, hfa⟩
        · obtain ⟨a', ha', hfa'⟩ := hmem x hx
          exact ⟨a', by simp [ha'], hfa'⟩

/-! ## Claim theorems -/

/-- **C4.** Each `_update_baseline_reward_buffer` call appends the
pre-update baseline value to the baseline buffer and then updates the
baseline as `baseline_t = beta * reward_t + (1 - beta) * baseline_{t-1}`;
concretely, with `beta = 0.9`, initial baseline `0` and rewards
`[1.0, 0.0]` in sequence, the recorded baseline sequence is `[0, 0.9]` and
the final baseline is `0.09`. -/
theorem baseline_update_appends_then_recomputes :
    (∀ (beta : ℚ) (st : BaselineState) (reward : ℚ),
        (updateBaselineRewardBuffer beta st reward).baselineRewardBuffer
            = st.baselineRewardBuffer ++ [st.currentBaselineReward]
          ∧ (updateBaselineRewardBuffer beta st reward).currentBaselineReward
            = beta * reward + (1 - beta) * st.currentBaselineReward)
    ∧ episodeBaselineRecords (9/10) 0 [1, 0] = ([0, 9/10], 9/100) := by
  refine ⟨fun beta st reward => ⟨rfl, rfl⟩, ?_⟩
  norm_num [episodeBaselineRecords, updateBaselineRewardBuffer,
    exponentialMean]

/-- **C5.** When the task environment's `evaluate` returns `None`,
`evaluate_actions` returns the configured error reward without raising,
and the episode state — validation scores, successful pipelines,
algorithm/hyperparameter sets, best score and best pipeline — is left
entirely unchanged, so the episode continues. -/
theorem evaluateActions_failure_returns_error_reward
    (evaluate : MLFramework → Option ℚ) (errorReward : ℚ)
    (envDep : PyDict String HValue) (algorithms : List AlgorithmComponent)
    (hyperparameters : PyDict String HValue) (st : EpisodeState)
    (hfail : evaluate
        (AlgorithmSpace.createMlFramework algorithms hyperparameters envDep)
      = none) :
    evaluateActions evaluate errorReward envDep algorithms hyperparameters st
      = (errorReward, st) := by
  simp [evaluateActions, hfail]

theorem evaluateActions_failure_returns_error_reward_witness :
    (fun _ : MLFramework => (none : Option ℚ))
        (AlgorithmSpace.createMlFramework [] [] []) = none
    ∧ evaluateActions (fun _ => none) (-1) [] [] [] initialEpisodeState
        = (-1, initialEpisodeState) :=
  ⟨rfl, evaluateActions_failure_returns_error_reward
    (fun _ => none) (-1) [] [] [] initialEpisodeState rfl⟩

/-- **C6 (amended).** With exactly one registered component of a type,
`sample_component` always returns that component; with zero registered
components it raises the `ValueError` coming from `np.random.randint` on
an empty range (not a `ConfigurationError`, and not `None`). -/
theorem sampleComponent_singleton_and_empty :
    (∀ (s : AlgorithmSpace) (t : String) (r : Nat) (c : AlgorithmComponent),
        s.getComponents t = [c] → s.sampleComponent t r = Except.ok c)
    ∧ (∀ (s : AlgorithmSpace) (t : String) (r : Nat),
        s.getComponents t = [] →
          s.sampleComponent t r = Except.error PyErr.valueError)
    ∧ singletonSpace.sampleComponent "classifier" 5
        = Except.ok exampleComponent := by
  refine ⟨?_, ?_, ?_⟩
  · intro s t r c h
    obtain ⟨c', hc', hmem⟩ := sampleComponent_ok_of_ne_nil s t r (by simp [h])
    rw [h] at hmem
    rw [hc', List.mem_singleton.mp hmem]
  · intro s t r h
    simp only [AlgorithmSpace.sampleComponent]
    rw [dif_pos (by simp [h])]
  · rfl

/-- **C6 (counterexample).** On a space with zero registered classifiers,
`sample_component("classifier")` fails with the `ValueError` that
`np.random.randint(0)` raises, which is not a `ConfigurationError`. -/
theorem sampleComponent_empty_raises_valueError :
    emptySpace.sampleComponent "classifier" 0 = Except.error PyErr.valueError
    ∧ (Except.error PyErr.valueError : Except PyErr AlgorithmComponent)
        ≠ Except.error PyErr.configurationError :=
  ⟨rfl, by simp⟩

/-- **C9.** A component with `hyperparameters is None` yields zero
hyperparameter assignments: the grid consists of the single empty setting,
`_check_hyperparameters` maps it to the empty dict, and `filter(None, ...)`
discards that falsy empty dict, so nothing is yielded. -/
theorem hyperparameterIterator_no_hyperparameters (c : AlgorithmComponent)
    (h : c.hyperparameters = none) :
    listProd c.expandedStateSpace = [[]]
    ∧ checkHyperparameters [] c.hyperparameterExclusionConditions = some []
    ∧ c.hyperparameterIterator = [] := by
  have hss : c.hyperparameterStateSpace = [] := by
    simp [AlgorithmComponent.hyperparameterStateSpace, h]
  have hex : c.expandedStateSpace = [] := by
    simp [AlgorithmComponent.expandedStateSpace, hss]
  refine ⟨by simp [hex, listProd], rfl, ?_⟩
  simp [AlgorithmComponent.hyperparameterIterator, hex, listProd,
    AlgorithmComponent.pyTruthyFilter, checkHyperparameters,
    checkHyperparametersAux, dictOf, dictUpdate]

theorem checkAux_append (conds : ExclusionConditions)
    (xs ys : List (String × HValue)) :
    ∀ excl, checkHyperparametersAux conds (xs ++ ys) excl =
      (checkHyperparametersAux conds xs excl).bind
        (fun e => checkHyperparametersAux conds ys e) := by
  induction xs with
  | nil => intro excl; rfl
  | cons p rest ih =>
    intro excl
    obtain ⟨key, value⟩ := p
    rw [List.cons_append]
    cases hev : valueExcluded key value excl with
    | true => simp [checkHyperparametersAux, hev]
    | false =>
      simp only [checkHyperparametersAux, hev, Bool.false_eq_true, if_false]
      cases h1 : alookup key conds with
      | none => exact ih excl
      | some excludeDict =>
        dsimp only
        cases h2 : alookup value excludeDict with
        | none => exact ih excl
        | some newExclusions => exact ih _

/-- Once a prefix of the assignment has accumulated the exclusion map
`excl`, a later pair whose value `excl` disallows makes
`_check_hyperparameters` reject the whole assignment. -/
theorem checkHyperparameters_rejects_excluded (conds : ExclusionConditions)
    (pre rest : List (String × HValue)) (k : String) (v : HValue)
    (excl : PyDict String (List HValue))
    (hpre : checkHyperparametersAux conds pre [] = some excl)
    (hv : valueExcluded k v excl = true) :
    checkHyperparameters (pre ++ (k, v) :: rest) conds = none := by
  unfold checkHyperparameters
  rw [checkAux_append conds pre ((k, v) :: rest) [], hpre]
  simp [checkHyperparametersAux, hv]

/-- Membership in `hyperparameter_iterator()`'s output is exactly:
a grid setting that survives the ordered exclusion check with a nonempty
resulting dict. -/
theorem mem_hyperparameterIterator (c : AlgorithmComponent)
    (d : PyDict String HValue) :
    d ∈ c.hyperparameterIterator ↔
      ∃ hs, hs ∈ listProd c.expandedStateSpace
        ∧ checkHyperparameters hs c.hyperparameterExclusionConditions
            = some d
        ∧ d ≠ [] := by
  unfold AlgorithmComponent.hyperparameterIterator
  rw [List.mem_filterMap]
  constructor
  · rintro ⟨r, hr, hg⟩
    rw [List.mem_map] at hr
    obtain ⟨hs, hhs, rfl⟩ := hr
    cases hck : checkHyperparameters hs c.hyperparameterExclusionConditions
      with
    | none =>
      rw [hck] at hg
      cases hg
    | some d' =>
      rw [hck] at hg
      simp only [AlgorithmComponent.pyTruthyFilter] at hg
      by_cases he : d'.isEmpty
      · rw [if_pos he] at hg; cases hg
      · rw [if_neg he] at hg
        cases hg
        refine ⟨hs, hhs, hck, ?_⟩
        simpa [List.isEmpty_iff] using he
  · rintro ⟨hs, hhs, hck, hne⟩
    refine ⟨checkHyperparameters hs c.hyperparameterExclusionConditions,
      List.mem_map.mpr ⟨hs, hhs, rfl⟩, ?_⟩
    rw [hck]
    simp only [AlgorithmComponent.pyTruthyFilter]
    rw [if_neg (by simpa [List.isEmpty_iff] using hne)]

/-- **C2.** `hyperparameter_iterator()` yields exactly the assignments of
the full hyperparameter grid that survive the ordered exclusion check; an
assignment selecting a value already excluded by an earlier-triggered rule
is rejected (not yielded), and the same assignment with the triggering
value absent is retained — concretely, on a component where `h1 = "a"`
excludes the later `h2 = "c"`, the assignment `(a, c)` is not yielded
while `(b, c)` is. -/
theorem hyperparameterIterator_exclusion_filtering :
    (∀ (conds : ExclusionConditions) (pre rest : List (String × HValue))
        (k : String) (v : HValue) (excl : PyDict String (List HValue)),
        checkHyperparametersAux conds pre [] = some excl →
        valueExcluded k v excl = true →
        checkHyperparameters (pre ++ (k, v) :: rest) conds = none)
    ∧ (∀ (c : AlgorithmComponent) (d : PyDict String HValue),
        d ∈ c.hyperparameterIterator ↔
          ∃ hs, hs ∈ listProd c.expandedStateSpace
            ∧ checkHyperparameters hs c.hyperparameterExclusionConditions
                = some d
            ∧ d ≠ [])
    ∧ dictOf [("clf__h1", HValue.str "a"), ("clf__h2", HValue.str "c")]
        ∉ exampleComponent.hyperparameterIterator
    ∧ dictOf [("clf__h1", HValue.str "b"), ("clf__h2", HValue.str "c")]
        ∈ exampleComponent.hyperparameterIterator :=
  ⟨checkHyperparameters_rejects_excluded, mem_hyperparameterIterator,
    by decide, by decide⟩

/-- What one episode's evaluation loop does to the success-related
bookkeeping: `_algorithm_sets` collects exactly the component lists of the
successfully evaluated iterations, and `_successful_mlfs` and
`_validation_scores` grow one entry per success. -/
theorem runEpisodeEval_spec (evaluate : MLFramework → Option ℚ)
    (errorReward : ℚ) (envDep : PyDict String HValue) :
    ∀ (iters : List (List AlgorithmComponent × PyDict String HValue))
      (st : EpisodeState),
      (runEpisodeEval evaluate errorReward envDep iters st).algorithmSets
          = st.algorithmSets
            ++ (iters.filter (fun it =>
                  (evaluate (AlgorithmSpace.createMlFramework it.1 it.2
                    envDep)).isSome)).map Prod.fst
      ∧ (runEpisodeEval evaluate errorReward envDep iters
            st).successfulMlfs.length
          = st.successfulMlfs.length
            + (iters.filter (fun it =>
                (evaluate (AlgorithmSpace.createMlFramework it.1 it.2
                  envDep)).isSome)).length
      ∧ (runEpisodeEval evaluate errorReward envDep iters
            st).validationScores.length
          = st.validationScores.length
            + (iters.filter (fun it =>
                (evaluate (AlgorithmSpace.createMlFramework it.1 it.2
                  envDep)).isSome)).length := by
  intro iters
  induction iters with
  | nil => intro st; simp [runEpisodeEval]
  | cons it rest ih =>
    intro st
    have hstep : runEpisodeEval evaluate errorReward envDep (it :: rest) st
        = runEpisodeEval evaluate errorReward envDep rest
            ((evaluateActions evaluate errorReward envDep it.1 it.2 st).2) :=
      rfl
    rw [hstep]
    cases hev : evaluate (AlgorithmSpace.createMlFramework it.1 it.2 envDep)
      with
    | none =>
      have hsame :
          (evaluateActions evaluate errorReward envDep it.1 it.2 st).2
            = st := by
        simp [evaluateActions, hev]
      rw [hsame]
      obtain ⟨ha, hs, hv⟩ := ih st
      refine ⟨?_, ?_, ?_⟩ <;>
        simp [List.filter_cons, hev, ha, hs, hv]
    | some r =>
      have halg :
          (evaluateActions evaluate errorReward envDep it.1 it.2
            st).2.algorithmSets = st.algorithmSets ++ [it.1] := by
        simp [evaluateActions, hev]
      have hsuc :
          (evaluateActions evaluate errorReward envDep it.1 it.2
            st).2.successfulMlfs.length = st.successfulMlfs.length + 1 := by
        simp [evaluateActions, hev]
      have hval :
          (evaluateActions evaluate errorReward envDep it.1 it.2
            st).2.validationScores.length
            = st.validationScores.length + 1 := by
        simp [evaluateActions, hev]
      obtain ⟨ha, hs, hv⟩ :=
        ih ((evaluateActions evaluate errorReward envDep it.1 it.2 st).2)
      refine ⟨?_, ?_, ?_⟩
      · rw [ha, halg]
        simp [List.filter_cons, hev]
      · rw [hs, hsuc]
        simp [List.filter_cons, hev]
        omega
      · rw [hv, hval]
        simp [List.filter_cons, hev]
        omega

/-- **C7.** The unique-pipeline count of an episode is the number of
distinct ordered component-choice tuples among the successful pipelines
(`_algorithm_sets` grows only on success, one entry per success), and the
diversity ratio is `unique / successful`, with `0` when nothing succeeded
(no division error); concretely, 3 successful pipelines of which 2 are
structurally unique give diversity `2/3`. -/
theorem episode_diversity_ratio :
    (∀ (evaluate : MLFramework → Option ℚ) (errorReward : ℚ)
        (envDep : PyDict String HValue)
        (iters : List (List AlgorithmComponent × PyDict String HValue)),
        (runEpisodeEval evaluate errorReward envDep iters
            initialEpisodeState).algorithmSets
          = (iters.filter (fun it =>
              (evaluate (AlgorithmSpace.createMlFramework it.1 it.2
                envDep)).isSome)).map Prod.fst
        ∧ (runEpisodeEval evaluate errorReward envDep iters
              initialEpisodeState).successfulMlfs.length
          = (runEpisodeEval evaluate errorReward envDep iters
              initialEpisodeState).algorithmSets.length
        ∧ (episodeSummary (runEpisodeEval evaluate errorReward envDep iters
              initialEpisodeState)).mlfFrameworkDiversity
          = if (runEpisodeEval evaluate errorReward envDep iters
                initialEpisodeState).successfulMlfs.length = 0 then 0
            else ((nUniqueMlfs (runEpisodeEval evaluate errorReward envDep
                    iters initialEpisodeState).algorithmSets : ℚ)
              / ((runEpisodeEval evaluate errorReward envDep iters
                    initialEpisodeState).successfulMlfs.length : ℚ)))
    ∧ nUniqueMlfs
        [[mkSyntheticComponent "A" "AClass" "classifier" "h"],
         [mkSyntheticComponent "B" "BClass" "classifier" "h"],
         [mkSyntheticComponent "A" "AClass" "classifier" "h"]] = 2
    ∧ mlFrameworkDiversity 2 3 = 2 / 3
    ∧ mlFrameworkDiversity 0 0 = 0 := by
  refine ⟨?_, by decide, ?_, rfl⟩
  · intro evaluate errorReward envDep iters
    obtain ⟨ha, hs, hv⟩ :=
      runEpisodeEval_spec evaluate errorReward envDep iters
        initialEpisodeState
    refine ⟨by simpa [initialEpisodeState] using ha, ?_, ?_⟩
    · rw [hs, ha]
      simp [initialEpisodeState]
    · simp [episodeSummary, mlFrameworkDiversity]
  · norm_num [mlFrameworkDiversity]

/-- **C8.** An episode with zero successful pipelines reports the NaN
sentinel (`none`) for both the mean and the standard deviation of its
validation scores; the summary is total, so the episode completes without
an exception. -/
theorem episode_zero_successes_nan (evaluate : MLFramework → Option ℚ)
    (errorReward : ℚ) (envDep : PyDict String HValue)
    (iters : List (List AlgorithmComponent × PyDict String HValue))
    (hzero : (runEpisodeEval evaluate errorReward envDep iters
        initialEpisodeState).successfulMlfs.length = 0) :
    (episodeSummary (runEpisodeEval evaluate errorReward envDep iters
        initialEpisodeState)).meanValidationScore = none
    ∧ (episodeSummary (runEpisodeEval evaluate errorReward envDep iters
        initialEpisodeState)).stdValidationScore = none := by
  obtain ⟨-, hs, hv⟩ :=
    runEpisodeEval_spec evaluate errorReward envDep iters
      initialEpisodeState
  rw [hs] at hzero
  have hflen : (iters.filter (fun it =>
      (evaluate (AlgorithmSpace.createMlFramework it.1 it.2
        envDep)).isSome)).length = 0 := by
    simpa [initialEpisodeState] using hzero
  have hvl : (runEpisodeEval evaluate errorReward envDep iters
      initialEpisodeState).validationScores.length = 0 := by
    rw [hv, hflen]
    simp [initialEpisodeState]
  constructor <;>
    simp [episodeSummary, meanValidationScore, stdValidationScore, hvl]

theorem episode_zero_successes_nan_witness :
    (runEpisodeEval (fun _ => none) 0 [] [([], [])]
        initialEpisodeState).successfulMlfs.length = 0
    ∧ ((episodeSummary (runEpisodeEval (fun _ => none) 0 [] [([], [])]
          initialEpisodeState)).meanValidationScore = none
       ∧ (episodeSummary (runEpisodeEval (fun _ => none) 0 [] [([], [])]
          initialEpisodeState)).stdValidationScore = none) :=
  ⟨rfl, episode_zero_successes_nan (fun _ => none) 0 [] [([], [])] rfl⟩

theorem foldl_updateBaseline_current (beta : ℚ) :
    ∀ (rewards : List ℚ) (st : BaselineState),
      (rewards.foldl (updateBaselineRewardBuffer beta)
          st).currentBaselineReward
        = rewards.foldl (fun b r => exponentialMean r b beta)
            st.currentBaselineReward := by
  intro rewards
  induction rewards with
  | nil => intro st; rfl
  | cons r rest ih =>
    intro st
    simp only [List.foldl_cons]
    rw [ih]
    rfl

theorem foldl_updateBaseline_buffer (beta : ℚ) :
    ∀ (rewards : List ℚ) (st : BaselineState),
      ∃ tail, (rewards.foldl (updateBaselineRewardBuffer beta)
          st).baselineRewardBuffer = st.baselineRewardBuffer ++ tail := by
  intro rewards
  induction rewards with
  | nil => intro st; exact ⟨[], by simp⟩
  | cons r rest ih =>
    intro st
    simp only [List.foldl_cons]
    obtain ⟨tail, htail⟩ := ih (updateBaselineRewardBuffer beta st r)
    exact ⟨st.currentBaselineReward :: tail,
      by rw [htail]; simp [updateBaselineRewardBuffer]⟩

/-- During a nonempty episode, the first baseline value recorded is the
baseline the episode started with. -/
theorem episodeBaselineRecords_head (beta b : ℚ) (rewards : List ℚ)
    (h : rewards ≠ []) :
    (episodeBaselineRecords beta b rewards).1.head? = some b := by
  obtain ⟨r, rest, rfl⟩ := List.exists_cons_of_ne_nil h
  simp only [episodeBaselineRecords, List.foldl_cons,
    updateBaselineRewardBuffer, List.nil_append]
  obtain ⟨tail, htail⟩ := foldl_updateBaseline_buffer beta rest
    ⟨[b], exponentialMean r b beta⟩
  rw [htail]
  simp

/-- An episode's final baseline is the exponential moving average of its
rewards folded from the baseline it started with. -/
theorem episodeBaselineRecords_final (beta b : ℚ) (rewards : List ℚ) :
    (episodeBaselineRecords beta b rewards).2
      = rewards.foldl (fun x r => exponentialMean r x beta) b := by
  simp only [episodeBaselineRecords]
  rw [foldl_updateBaseline_current]

theorem fitBaselineTraceAux_getD (beta : ℚ) :
    ∀ (episodes : List (List ℚ)) (b : ℚ) (e : ℕ), e < episodes.length →
      (fitBaselineTraceAux beta b episodes).getD e []
        = (episodeBaselineRecords beta
            (((episodes.take e).flatten).foldl
              (fun x r => exponentialMean r x beta) b)
            (episodes.getD e [])).1 := by
  intro episodes
  induction episodes with
  | nil => intro b e h; simp at h
  | cons rewards rest ih =>
    intro b e h
    cases e with
    | zero => simp [fitBaselineTraceAux]
    | succ e' =>
      simp only [fitBaselineTraceAux, List.getD_cons_succ]
      rw [ih (episodeBaselineRecords beta b rewards).2 e' (by simpa using h)]
      rw [episodeBaselineRecords_final]
      congr 1
      simp [List.take_succ_cons, List.foldl_append]

/-- **C10.** The baseline reward is initialized to `0` exactly once,
before the first episode of `fit`, and is never reset between episodes:
the first baseline value recorded in episode `e` equals the exponential
moving average accumulated over all rewards of all previous episodes
(hence `0` for the first episode). -/
theorem baseline_carried_across_episodes (beta : ℚ)
    (episodes : List (List ℚ)) (e : ℕ) (he : e < episodes.length)
    (hne : episodes.getD e [] ≠ []) :
    ((fitBaselineTrace beta episodes).getD e []).head?
      = some (((episodes.take e).flatten).foldl
          (fun b r => exponentialMean r b beta) 0) := by
  unfold fitBaselineTrace
  rw [fitBaselineTraceAux_getD beta episodes 0 e he]
  exact episodeBaselineRecords_head _ _ _ hne

theorem baseline_carried_across_episodes_witness :
    1 < ([[(1 : ℚ)], [2]] : List (List ℚ)).length
    ∧ ([[(1 : ℚ)], [2]] : List (List ℚ)).getD 1 [] ≠ []
    ∧ ((fitBaselineTrace (1/2) [[1], [2]]).getD 1 []).head?
      = some (((([[(1 : ℚ)], [2]] : List (List ℚ)).take 1).flatten).foldl
          (fun b r => exponentialMean r b (1/2)) 0) :=
  ⟨by norm_num, by simp,
    baseline_carried_across_episodes (1/2) [[1], [2]] 1 (by norm_num)
      (by simp)⟩

theorem mapM_cons_error {α β : Type} {f : α → Except PyErr β} {a : α}
    {l : List α} {e : PyErr} (h : f a = Except.error e) :
    (a :: l).mapM f = Except.error e := by
  rw [List.mapM_cons, h]
  rfl

/-- An update-sequence element whose length is not 2 raises
`ValueError`. -/
theorem seqElemAsPair_error (acc : PyDict String HValue)
    (a : PyDict String HValue) (h : a.length ≠ 2) :
    AlgorithmSpace.seqElemAsPair acc a = Except.error PyErr.valueError := by
  rcases a with _ | ⟨x, _ | ⟨y, _ | ⟨z, t⟩⟩⟩
  · rfl
  · rfl
  · exact absurd rfl h
  · rfl

/-- Whenever the first sampled component's hyperparameter iterator is
nonempty and its first yielded dict does not have exactly two keys, the
generator of `framework_iterator` raises `ValueError` at its first
element: `_combine_dicts` calls `dict.update` on the iterator, and its
first sequence element fails the length-2 check. -/
theorem frameworkIteratorBody_raises (c : AlgorithmComponent)
    (rest : List AlgorithmComponent) (d : PyDict String HValue)
    (ds : List (PyDict String HValue))
    (hiter : c.hyperparameterIterator = d :: ds) (hlen : d.length ≠ 2) :
    AlgorithmSpace.frameworkIteratorBody (c :: rest)
      = Except.error PyErr.valueError := by
  simp only [AlgorithmSpace.frameworkIteratorBody, AlgorithmSpace.pyProduct1,
    List.map_cons, List.map_nil, List.flatMap_cons]
  apply mapM_cons_error
  show (AlgorithmSpace.combineDicts [c.hyperparameterIterator]).map _
      = Except.error PyErr.valueError
  rw [hiter]
  simp only [AlgorithmSpace.combineDicts, List.foldlM_cons, List.foldlM_nil,
    seqElemAsPair_error [] d hlen, error_bind]
  rfl

/-- On the synthetic catalog, every pair of random draws samples one
feature preprocessor and one classifier, successfully. -/
theorem synthetic_sampling_ok (r1 r2 : Nat) :
    ∃ A B,
      syntheticSpace.sampleComponentsFromSignature syntheticSignature
          [r1, r2] = Except.ok [A, B]
      ∧ A ∈ syntheticSpace.getComponents "feature_preprocessor"
      ∧ B ∈ syntheticSpace.getComponents "classifier" := by
  obtain ⟨A, hA, hAmem⟩ := sampleComponent_ok_of_ne_nil syntheticSpace
    "feature_preprocessor" r1 (by decide)
  obtain ⟨B, hB, hBmem⟩ := sampleComponent_ok_of_ne_nil syntheticSpace
    "classifier" r2 (by decide)
  refine ⟨A, B, ?_, hAmem, hBmem⟩
  simp only [AlgorithmSpace.sampleComponentsFromSignature,
    syntheticSignature]
  rw [show ["feature_preprocessor", "classifier"].zip [r1, r2]
      = [("feature_preprocessor", r1), ("classifier", r2)] from rfl]
  rw [List.mapM_cons, hA, ok_bind, List.mapM_cons, hB, ok_bind,
    List.mapM_nil]
  rfl

/-- **C1.** On the spec's synthetic catalog (2 slots, 2 components per
slot, one two-valued hyperparameter each, no exclusions), where the claim
expects exactly 16 yielded pipelines, `framework_iterator` instead raises
`ValueError` before yielding anything, for every random draw: it applies
`itertools.product` to the single list of per-slot *sampled* components
(no `*`-unpacking, so it enumerates one-element tuples, not the
cross-product), and then `_combine_dicts` calls `dict.update` on a
nonempty iterator of one-key dicts, whose first sequence element fails
CPython's length-2 check. -/
theorem frameworkIterator_synthetic_raises_valueError :
    ∀ r1 r2 : Nat,
      syntheticSpace.frameworkIterator syntheticSignature [r1, r2]
        = Except.error PyErr.valueError := by
  have hfpall : ∀ x ∈ syntheticSpace.getComponents "feature_preprocessor",
      x.hyperparameterIterator ≠ []
        ∧ (x.hyperparameterIterator.getD 0 []).length ≠ 2 := by decide
  intro r1 r2
  obtain ⟨A, B, hok, hAmem, -⟩ := synthetic_sampling_ok r1 r2
  obtain ⟨hAne, hAlen⟩ := hfpall A hAmem
  obtain ⟨d, ds, hds⟩ := List.exists_cons_of_ne_nil hAne
  rw [hds] at hAlen
  rw [List.getD_cons_zero] at hAlen
  have hbody : AlgorithmSpace.frameworkIteratorBody [A, B]
      = Except.error PyErr.valueError :=
    frameworkIteratorBody_raises A [B] d ds hds hAlen
  simp only [AlgorithmSpace.frameworkIterator]
  rw [hok, ok_bind]
  exact hbody

/-- **C3 (code evaluation).** `sample_ml_framework` passes `signature` as
an extra positional argument to the zero-argument method
`sample_hyperparameter_state_space`, so whenever component sampling
succeeds with at least one component the call raises `TypeError` instead
of assembling a pipeline; in particular it always does so on the synthetic
catalog. -/
theorem sampleMlFramework_raises_typeError :
    (∀ (s : AlgorithmSpace) (signature : List String) (rands : List Nat)
        (hrand : Nat → Nat) (comps : List AlgorithmComponent),
        s.sampleComponentsFromSignature signature rands = Except.ok comps →
        comps ≠ [] →
        s.sampleMlFramework signature rands hrand
          = Except.error PyErr.typeError)
    ∧ (∀ (hrand : Nat → Nat) (r1 r2 : Nat),
        syntheticSpace.sampleMlFramework syntheticSignature [r1, r2] hrand
          = Except.error PyErr.typeError) := by
  have general : ∀ (s : AlgorithmSpace) (signature : List String)
      (rands : List Nat) (hrand : Nat → Nat)
      (comps : List AlgorithmComponent),
      s.sampleComponentsFromSignature signature rands = Except.ok comps →
      comps ≠ [] →
      s.sampleMlFramework signature rands hrand
        = Except.error PyErr.typeError := by
    intro s signature rands hrand comps hok hne
    obtain ⟨c, cs, rfl⟩ := List.exists_cons_of_ne_nil hne
    simp only [AlgorithmSpace.sampleMlFramework]
    rw [hok, ok_bind, List.foldlM_cons]
    have hcall : c.callSampleHyperparameterStateSpace hrand 1
        = Except.error PyErr.typeError := rfl
    simp [hcall, error_bind]
  refine ⟨general, ?_⟩
  intro hrand r1 r2
  obtain ⟨A, B, hok, -, -⟩ := synthetic_sampling_ok r1 r2
  exact general syntheticSpace syntheticSignature [r1, r2] hrand [A, B] hok
    (by simp)

theorem hyperparameterIterator_no_hyperparameters_witness :
    oneHotEncoderComponent.hyperparameters = none
    ∧ (listProd oneHotEncoderComponent.expandedStateSpace = [[]]
       ∧ checkHyperparameters []
           oneHotEncoderComponent.hyperparameterExclusionConditions = some []
       ∧ oneHotEncoderComponent.hyperparameterIterator = []) :=
  ⟨rfl, hyperparameterIterator_no_hyperparameters oneHotEncoderComponent rfl⟩

end DeepCash
